import Mathlib

/-!
Verification development for the Brackets CSS inline-editor module
(`src/editor/CSSInlineEditor.js`).  The module's data and control flow are
shallowly embedded: strings are `List Char`, positions are record types, and
the promise-driven provider pipeline is a deterministic function of an
environment record supplying the outcomes of the external asynchronous calls
(rule lookup, stylesheet-list query, document load).  The session around the
"new rule" button is a state machine stepped by events.
-/

namespace CSSInlineEditor

/-! ## JavaScript string primitives, on `List Char`

`String.prototype.indexOf(" ", from)` and `String.prototype.lastIndexOf(" ")`
return character indices or `-1`; we return `Option Nat`. -/

/-- Index of the first `' '` in the list (JS `indexOf(" ")`), if any. -/
def jsIndexOfSpace : List Char → Option Nat
  | [] => none
  | c :: rest => if c = ' ' then some 0 else (jsIndexOfSpace rest).map (· + 1)

/-- Index of the first `' '` at position `≥ start` (JS `indexOf(" ", start)`). -/
def jsIndexOfSpaceFrom (l : List Char) (start : Nat) : Option Nat :=
  (jsIndexOfSpace (l.drop start)).map (· + start)

/-- Index of the last `' '` in the list (JS `lastIndexOf(" ")`), if any. -/
def jsLastIndexOfSpace : List Char → Option Nat
  | [] => none
  | c :: rest =>
    match jsLastIndexOfSpace rest with
    | some j => some (j + 1)
    | none => if c = ' ' then some 0 else none

/-- JS `String.prototype.substring(a, b)`: swaps its endpoints when
`a > b` and clamps them to the string. -/
def jsSubstring (l : List Char) (a b : Nat) : List Char :=
  (l.take (max a b)).drop (min a b)

/-! ## Position context and selector resolution (`_getSelectorName`) -/

/-- Token kinds distinguished by `HTMLUtils.getTagInfo`; the source compares
against `HTMLUtils.TAG_NAME`, `CLOSING_TAG`, `ATTR_NAME`, `ATTR_VALUE`. -/
inductive TokenType
  | TAG_NAME
  | CLOSING_TAG
  | ATTR_NAME
  | ATTR_VALUE
  | OTHER
deriving DecidableEq, Repr

/-- The `tagInfo` record returned by `HTMLUtils.getTagInfo`: the fields the
source reads are `position.tokenType`, `position.offset`, `tagName`,
`attr.name`, `attr.value`. -/
structure TagInfo where
  tokenType : TokenType
  offset : Nat
  tagName : List Char
  attrName : List Char
  attrValue : List Char
deriving DecidableEq, Repr

/-- The class branch of `_getSelectorName` (lines 73-86):
`startIndex = attributeValue.substr(0, offset).lastIndexOf(" ")`,
`endIndex = attributeValue.indexOf(" ", offset)`, then
`"." + attributeValue.substring(startIndex === -1 ? 0 : startIndex + 1,
endIndex === -1 ? attributeValue.length : endIndex)`, collapsed to `""`
when the result is exactly `"."`. -/
def classSelectorCode (attributeValue : List Char) (offset : Nat) : List Char :=
  let startIndex := jsLastIndexOfSpace (attributeValue.take offset)
  let endIndex := jsIndexOfSpaceFrom attributeValue offset
  let selectorName := '.' ::
    jsSubstring attributeValue
      (startIndex.elim 0 (fun i => i + 1))
      (endIndex.elim attributeValue.length (fun i => i))
  if selectorName = ['.'] then [] else selectorName

/-- `_getSelectorName` (CSSInlineEditor.js lines 58-94): selector for the
tag/attribute surrounding the position, or `""`. -/
def getSelectorName (tagInfo : TagInfo) : List Char :=
  if tagInfo.tokenType = TokenType.TAG_NAME ∨ tagInfo.tokenType = TokenType.CLOSING_TAG then
    tagInfo.tagName
  else if tagInfo.tokenType = TokenType.ATTR_NAME ∨ tagInfo.tokenType = TokenType.ATTR_VALUE then
    if tagInfo.attrName = "class".toList then
      classSelectorCode tagInfo.attrValue tagInfo.offset
    else if tagInfo.attrName = "id".toList then
      '#' :: tagInfo.attrValue
    else []
  else []

/-- Drop one leading `' '` if present (the claim's "trimmed of a leading
space"). -/
def trimLeadingSpace (l : List Char) : List Char :=
  match l with
  | [] => []
  | c :: rest => if c = ' ' then rest else c :: rest

/-- The class-selector computation exactly as the claim words it:
`start` = index of the last space in `V[0..C)` (0 if none), `end` = index of
the first space in `V[C..]` (end of string if none); the result is `.` +
`V[start..end)` trimmed of a leading space, or empty when that slice is
empty. -/
def classSelectorSpec (V : List Char) (C : Nat) : List Char :=
  let start := (jsLastIndexOfSpace (V.take C)).elim 0 (fun i => i)
  let stop := (jsIndexOfSpaceFrom V C).elim V.length (fun i => i)
  let slice := trimLeadingSpace ((V.take stop).drop start)
  if slice = [] then [] else '.' :: slice

/-! ## The provider's synchronous phase (`htmlToCSSProvider`, lines 151-169)

The host editor is modelled by the data the provider reads from it: the
language of the current selection, the selection itself, and the tokenizer's
answer at each position (`HTMLUtils.getTagInfo` is external, so it enters the
model as a function field). -/

/-- A `{line, ch}` editor position. -/
structure Pos where
  line : Nat
  ch : Nat
deriving DecidableEq, Repr

/-- The current selection, `{start, end}`. -/
structure Selection where
  startPos : Pos
  endPos : Pos
deriving DecidableEq, Repr

/-- The host editor as the provider observes it. -/
structure HostEditor where
  /-- `hostEditor.getLanguageForSelection().getId()`. -/
  languageId : List Char
  /-- `hostEditor.getSelection()`. -/
  sel : Selection
  /-- `HTMLUtils.getTagInfo(hostEditor, pos)` for each position. -/
  tagInfoAt : Pos → TagInfo

/-- Result of the synchronous prefix of `htmlToCSSProvider`: either `null`
was returned before any asynchronous call, or a deferred was created and the
rule lookup for the resolved selector was issued. -/
inductive ProvideSync
  | declined
  | pending (selectorName : List Char)
deriving DecidableEq, Repr

/-- Lines 151-169 of `htmlToCSSProvider`: the three early-outs, then the
selector resolved at the selection start.  The `pos` parameter is accepted
but, as in the source, never consulted. -/
def provideSync (hostEditor : HostEditor) (pos : Pos) : ProvideSync :=
  if hostEditor.languageId ≠ "html".toList then
    ProvideSync.declined
  else if hostEditor.sel.startPos.line ≠ hostEditor.sel.endPos.line then
    ProvideSync.declined
  else
    let selectorName := getSelectorName (hostEditor.tagInfoAt hostEditor.sel.startPos)
    if selectorName = [] then ProvideSync.declined
    else ProvideSync.pending selectorName

/-! ## The quick-edit session state machine

State gathered from the widget-construction callback (lines 284-320) and the
handlers it closes over: the stylesheet list `cssFileInfos`, the button's
`disabled` and `btn-dropdown` classes, whether the dropdown is showing
(`$dropdown` non-null), and — for the rule-creation claims — the widget's
range list, its selected range, and its editor's caret. -/

/-- A `StylesheetDescriptor` from `FileIndexManager.getFileInfoList("css")`;
the source reads only `fullPath`. -/
structure FileInfo where
  fullPath : List Char
deriving DecidableEq, Repr

/-- A range shown by the multi-range widget, as added by
`addAndSelectRange(label, doc, fromLine, toLine)`. -/
structure RangeEntry where
  label : List Char
  fromLine : Nat
  toLine : Nat
deriving DecidableEq, Repr

/-- The record returned by `CSSUtils.addRuleToDocument`: the source reads
`range.from.line`, `range.to.line`, `pos.line`, `pos.ch`. -/
structure NewRuleInfo where
  rangeFromLine : Nat
  rangeToLine : Nat
  pos : Pos
deriving DecidableEq, Repr

/-- Observable state of one quick-edit session. -/
structure SessionState where
  cssFileInfos : List FileInfo
  /-- the button carries the `disabled` class. -/
  buttonDisabled : Bool
  /-- the button carries the `btn-dropdown` class. -/
  btnDropdownClass : Bool
  /-- `$dropdown` is non-null (the stylesheet picker is showing). -/
  dropdownOpen : Bool
  /-- focus was forced to the button (`$newRuleButton.focus()`). -/
  buttonFocused : Bool
  ranges : List RangeEntry
  selectedRange : Option RangeEntry
  caret : Pos
deriving DecidableEq, Repr

/-- Externally visible actions a handler can take. -/
inductive UIAction
  /-- `_addRule(selectorName, cssInlineEditor, path)` was started. -/
  | createRule (path : List Char)
  /-- `_closeDropdown()` was invoked. -/
  | closeDropdown
  /-- `_showDropdown()` rendered these candidates. -/
  | openDropdown (candidates : List FileInfo)
deriving DecidableEq, Repr

instance : Inhabited FileInfo := ⟨⟨[]⟩⟩

/-- `_handleNewRuleClick` (lines 267-281): no-op while the button is
disabled; with exactly one stylesheet create the rule against
`cssFileInfos[0].fullPath`; otherwise toggle the dropdown. -/
def handleNewRuleClick (s : SessionState) : SessionState × List UIAction :=
  if s.buttonDisabled then
    (s, [])
  else if s.cssFileInfos.length = 1 then
    (s, [UIAction.createRule (s.cssFileInfos.headI.fullPath)])
  else if s.dropdownOpen then
    ({ s with dropdownOpen := false }, [UIAction.closeDropdown])
  else
    ({ s with dropdownOpen := true }, [UIAction.openDropdown s.cssFileInfos])

/-- The `getFileInfoList("css").done` callback (lines 302-320): store the
list, enable the button when it is non-empty (forcing focus to it when the
lookup had returned no rules), and add `btn-dropdown` when there is more
than one stylesheet. -/
def applyFileInfoList (rulesLen : Nat) (s : SessionState) (fileInfos : List FileInfo) :
    SessionState :=
  { s with
    cssFileInfos := fileInfos
    buttonDisabled := if fileInfos.length > 0 then false else s.buttonDisabled
    buttonFocused :=
      if fileInfos.length > 0 ∧ rulesLen = 0 then true else s.buttonFocused
    btnDropdownClass := if fileInfos.length > 1 then true else s.btnDropdownClass }

/-- `inlineEditor.addAndSelectRange(label, doc, fromLine, toLine)`.
Modelled from the spec: `MultiRangeInlineEditor` is outside this module;
per §4.4/§6 the call "adds it to the multi-range display and selects it". -/
def addAndSelectRange (label : List Char) (fromLine toLine : Nat) (s : SessionState) :
    SessionState :=
  let r : RangeEntry := ⟨label, fromLine, toLine⟩
  { s with ranges := s.ranges ++ [r], selectedRange := some r }

/-- `inlineEditor.editor.setCursorPos(line, ch)`.  Modelled from the spec:
the widget's editor handle is external; per §6 it moves the caret. -/
def setCursorPos (p : Pos) (s : SessionState) : SessionState :=
  { s with caret := p }

/-- `_addRule` (lines 117-123), run to completion of its asynchronous step.
`docOutcome` is the outcome of `getDocumentForPath` followed by
`CSSUtils.addRuleToDocument` (both external): `some info` when the document
arrived and insertion returned `info`; `none` when the document load failed,
in which case the `.done` callback — the only handler attached — never
runs. -/
def addRule (selectorName : List Char) (docOutcome : Option NewRuleInfo)
    (s : SessionState) : SessionState × List UIAction :=
  match docOutcome with
  | none => (s, [])
  | some newRuleInfo =>
    (setCursorPos newRuleInfo.pos
      (addAndSelectRange selectorName newRuleInfo.rangeFromLine newRuleInfo.rangeToLine s),
     [])

/-- Events that can reach a live session after the widget is built. -/
inductive SessionEvent
  /-- the `getFileInfoList` promise resolved with this list. -/
  | fileListArrived (fileInfos : List FileInfo)
  /-- the new-rule button was clicked (or the global command routed here). -/
  | newRuleClick
  /-- an `_addRule` started earlier completed with this outcome. -/
  | ruleCreationDone (docOutcome : Option NewRuleInfo)
  /-- the dropdown was dismissed (outside click / keyboard close). -/
  | dropdownDismissed
deriving DecidableEq, Repr

/-- One step of the session machine.  `rulesLen` is the length of the rule
list the lookup returned (fixed for the session); `selectorName` the
session's resolved selector. -/
def sessionStep (selectorName : List Char) (rulesLen : Nat)
    (s : SessionState) : SessionEvent → SessionState × List UIAction
  | SessionEvent.fileListArrived fileInfos => (applyFileInfoList rulesLen s fileInfos, [])
  | SessionEvent.newRuleClick => handleNewRuleClick s
  | SessionEvent.ruleCreationDone docOutcome => addRule selectorName docOutcome s
  | SessionEvent.dropdownDismissed => ({ s with dropdownOpen := false }, [])

/-- Run a session from a state through a list of events. -/
def runSession (selectorName : List Char) (rulesLen : Nat)
    (s : SessionState) (events : List SessionEvent) : SessionState :=
  events.foldl (fun st e => (sessionStep selectorName rulesLen st e).1) s

/-- The session state right after widget construction (lines 285-299): the
button is created with class `disabled`, no stylesheet list yet, no
dropdown; the widget shows the consolidated rule ranges. -/
def initialSession (initialRanges : List RangeEntry) : SessionState :=
  { cssFileInfos := []
    buttonDisabled := true
    btnDropdownClass := false
    dropdownOpen := false
    buttonFocused := false
    ranges := initialRanges
    selectedRange := none
    caret := ⟨0, 0⟩ }

/-! ## The full provider pipeline

`htmlToCSSProvider` composed with the outcomes of its asynchronous calls:
the environment supplies what `CSSUtils.findMatchingRules` and
`FileIndexManager.getFileInfoList` resolve to.  Because execution is
single-threaded and each callback runs once, the eventual outcome is a
deterministic function of the editor state and the environment. -/

/-- Outcomes of the external asynchronous calls the provider makes. -/
structure Env where
  /-- `CSSUtils.findMatchingRules`: `.ok ranges` resolves with the
  consolidated rule ranges, `.error` rejects. -/
  lookup : Except Unit (List RangeEntry)
  /-- `FileIndexManager.getFileInfoList("css")` for the post-build
  callback. -/
  fileInfos : List FileInfo

/-- What `htmlToCSSProvider` returned to the caller. -/
inductive ProvideReturn
  /-- returned `null` synchronously. -/
  | noProvider
  /-- returned a promise that was eventually resolved with the widget. -/
  | resolvedWidget
  /-- returned a promise that was eventually rejected. -/
  | rejected
deriving DecidableEq, Repr

/-- Everything observable about one provider invocation after all its
asynchronous callbacks have settled. -/
structure ProvideOutcome where
  ret : ProvideReturn
  /-- a `MultiRangeInlineEditor` was constructed and loaded. -/
  widgetBuilt : Bool
  session : Option SessionState
  /-- `console.log` output. -/
  logs : List (List Char)
  /-- number of `findMatchingRules` calls issued. -/
  lookupsIssued : Nat
deriving DecidableEq, Repr

/-- `htmlToCSSProvider` (lines 151-327) run to quiescence under `env`. -/
def provide (hostEditor : HostEditor) (pos : Pos) (env : Env) : ProvideOutcome :=
  match provideSync hostEditor pos with
  | ProvideSync.declined =>
    { ret := ProvideReturn.noProvider, widgetBuilt := false, session := none
      logs := [], lookupsIssued := 0 }
  | ProvideSync.pending _ =>
    match env.lookup with
    | Except.error _ =>
      { ret := ProvideReturn.rejected, widgetBuilt := false, session := none
        logs := ["Error in findMatchingRules()".toList], lookupsIssued := 1 }
    | Except.ok ranges =>
      let s0 := initialSession ranges
      let s1 := applyFileInfoList ranges.length s0 env.fileInfos
      { ret := ProvideReturn.resolvedWidget, widgetBuilt := true, session := some s1
        logs := [], lookupsIssued := 1 }

/-! ## Global "new rule" command routing (`_handleNewRule`, lines 129-139) -/

/-- An entry of the module-level `_newRuleHandlers` list; widgets and
handlers are identified by opaque numerals. -/
structure HandlerEntry where
  inlineEditor : Nat
  handler : Nat
deriving DecidableEq, Repr

/-- `_handleNewRule`: ask `getFocusedMultiRangeInlineEditor()` (external,
modelled by `focused`), then `_.find` the first registry entry for that
widget and invoke its handler; `none` means no handler was invoked. -/
def handleNewRule (focused : Option Nat) (newRuleHandlers : List HandlerEntry) :
    Option Nat :=
  match focused with
  | none => none
  | some inlineEditor =>
    (newRuleHandlers.find? (fun entry => entry.inlineEditor = inlineEditor)).map
      (fun entry => entry.handler)

/-- Two concrete stylesheet descriptors, for exercising the dropdown path. -/
def twoSheets : List FileInfo := [⟨"a.css".toList⟩, ⟨"b.css".toList⟩]

/-- The session reached from construction by: stylesheet list arrives with
two entries, then one click on the (now enabled) new-rule button — i.e. the
state in which the dropdown is showing. -/
def openDropdownState : SessionState :=
  (sessionStep [] 1
    ((sessionStep [] 1 (initialSession [])
        (SessionEvent.fileListArrived twoSheets)).1)
    SessionEvent.newRuleClick).1

/-! ## Characterisations of the string-index primitives -/

theorem jsIndexOfSpace_eq_none {l : List Char} :
    jsIndexOfSpace l = none ↔ ' ' ∉ l := by
  induction l with
  | nil => simp [jsIndexOfSpace]
  | cons c rest ih =>
    by_cases hc : c = ' '
    · subst hc; simp [jsIndexOfSpace]
    · simp only [jsIndexOfSpace, if_neg hc, Option.map_eq_none', ih, List.mem_cons]
      constructor
      · intro h
        push_neg
        exact ⟨fun hs => hc hs.symm, h⟩
      · intro h
        push_neg at h
        exact h.2

theorem jsIndexOfSpace_eq_some {l : List Char} {j : Nat}
    (h : jsIndexOfSpace l = some j) :
    l[j]? = some ' ' ∧ ∀ i, i < j → l[i]? ≠ some ' ' := by
  induction l generalizing j with
  | nil => simp [jsIndexOfSpace] at h
  | cons c rest ih =>
    by_cases hc : c = ' '
    · subst hc
      simp [jsIndexOfSpace] at h
      subst h
      exact ⟨by simp, fun i hi => absurd hi (Nat.not_lt_zero i)⟩
    · simp only [jsIndexOfSpace, if_neg hc, Option.map_eq_some'] at h
      obtain ⟨j', hj', rfl⟩ := h
      obtain ⟨h1, h2⟩ := ih hj'
      refine ⟨by simpa using h1, ?_⟩
      intro i hi
      match i with
      | 0 =>
        intro hget
        rw [List.getElem?_cons_zero] at hget
        exact hc (Option.some.inj hget)
      | i' + 1 =>
        simp only [List.getElem?_cons_succ]
        exact h2 i' (Nat.lt_of_succ_lt_succ hi)

theorem jsLastIndexOfSpace_eq_none {l : List Char} :
    jsLastIndexOfSpace l = none ↔ ' ' ∉ l := by
  induction l with
  | nil => simp [jsLastIndexOfSpace]
  | cons c rest ih =>
    cases h : jsLastIndexOfSpace rest with
    | some j =>
      have : ' ' ∈ rest := by
        by_contra hmem
        rw [← ih] at hmem
        simp [h] at hmem
      simp [jsLastIndexOfSpace, h, List.mem_cons, this]
    | none =>
      by_cases hc : c = ' '
      · subst hc; simp [jsLastIndexOfSpace, h]
      · simp only [jsLastIndexOfSpace, h, if_neg hc, List.mem_cons]
        constructor
        · intro _
          push_neg
          exact ⟨fun hs => hc hs.symm, ih.mp h⟩
        · intro _
          trivial

theorem jsLastIndexOfSpace_eq_some {l : List Char} {j : Nat}
    (h : jsLastIndexOfSpace l = some j) :
    l[j]? = some ' ' ∧ ∀ i, j < i → l[i]? ≠ some ' ' := by
  induction l generalizing j with
  | nil => simp [jsLastIndexOfSpace] at h
  | cons c rest ih =>
    cases hr : jsLastIndexOfSpace rest with
    | some j' =>
      simp only [jsLastIndexOfSpace, hr, Option.some.injEq] at h
      subst h
      obtain ⟨h1, h2⟩ := ih hr
      refine ⟨by simpa using h1, ?_⟩
      intro i hi
      match i with
      | 0 => exact absurd hi (Nat.not_lt_zero _)
      | i' + 1 =>
        simp only [List.getElem?_cons_succ]
        exact h2 i' (Nat.lt_of_succ_lt_succ hi)
    | none =>
      by_cases hc : c = ' '
      · subst hc
        simp [jsLastIndexOfSpace, hr] at h
        subst h
        refine ⟨by simp, ?_⟩
        intro i hi
        match i with
        | 0 => exact absurd hi (Nat.lt_irrefl 0)
        | i' + 1 =>
          simp only [List.getElem?_cons_succ]
          intro hget
          exact (jsLastIndexOfSpace_eq_none.mp hr) (List.getElem?_mem hget)
      · simp [jsLastIndexOfSpace, hr, hc] at h

theorem jsIndexOfSpaceFrom_eq_some {V : List Char} {C j : Nat}
    (h : jsIndexOfSpaceFrom V C = some j) :
    C ≤ j ∧ V[j]? = some ' ' ∧ ∀ i, C ≤ i → i < j → V[i]? ≠ some ' ' := by
  unfold jsIndexOfSpaceFrom at h
  rw [Option.map_eq_some'] at h
  obtain ⟨j', hj', rfl⟩ := h
  obtain ⟨h1, h2⟩ := jsIndexOfSpace_eq_some hj'
  rw [List.getElem?_drop] at h1
  refine ⟨Nat.le_add_left C j', by rw [Nat.add_comm] at h1; exact h1, ?_⟩
  intro i hCi hij hget
  have hdrop : (V.drop C)[i - C]? = V[i]? := by
    rw [List.getElem?_drop]
    congr 1
    omega
  exact h2 (i - C) (by omega) (by rw [hdrop]; exact hget)

theorem jsIndexOfSpaceFrom_eq_none {V : List Char} {C : Nat}
    (h : jsIndexOfSpaceFrom V C = none) :
    ∀ i, C ≤ i → V[i]? ≠ some ' ' := by
  unfold jsIndexOfSpaceFrom at h
  rw [Option.map_eq_none'] at h
  have hno := jsIndexOfSpace_eq_none.mp h
  intro i hi hget
  apply hno
  have hdrop : (V.drop C)[i - C]? = V[i]? := by
    rw [List.getElem?_drop]
    congr 1
    omega
  exact List.getElem?_mem (by rw [hdrop]; exact hget)

theorem lastSpaceBefore_eq_some {V : List Char} {C i : Nat}
    (h : jsLastIndexOfSpace (V.take C) = some i) :
    i < C ∧ V[i]? = some ' ' ∧ ∀ k, i < k → k < C → V[k]? ≠ some ' ' := by
  obtain ⟨h1, h2⟩ := jsLastIndexOfSpace_eq_some h
  rw [List.getElem?_take] at h1
  by_cases hc : i < C
  · rw [if_pos hc] at h1
    refine ⟨hc, h1, ?_⟩
    intro k hik hkC hget
    apply h2 k hik
    rw [List.getElem?_take, if_pos hkC]
    exact hget
  · rw [if_neg hc] at h1
    cases h1

theorem lastSpaceBefore_eq_none {V : List Char} {C : Nat}
    (h : jsLastIndexOfSpace (V.take C) = none) :
    ∀ k, k < C → V[k]? ≠ some ' ' := by
  have hno := jsLastIndexOfSpace_eq_none.mp h
  intro k hk hget
  apply hno
  have htake : (V.take C)[k]? = some ' ' := by
    rw [List.getElem?_take, if_pos hk]
    exact hget
  exact List.getElem?_mem htake

/-- A segment of `V` with no `' '` at any index in `[a, b)` contains no
space. -/
theorem no_space_in_slice {V : List Char} {a b : Nat}
    (h : ∀ i, a ≤ i → i < b → V[i]? ≠ some ' ') :
    ' ' ∉ (V.take b).drop a := by
  intro hmem
  obtain ⟨k, hk, hget⟩ := List.getElem_of_mem hmem
  have hlen : a + k < (V.take b).length := by
    rw [List.length_drop] at hk
    omega
  have hb : a + k < b := by
    have := hlen
    rw [List.length_take] at this
    omega
  have hv : a + k < V.length := by
    have := hlen
    rw [List.length_take] at this
    omega
  have hVak : V[a + k] = ' ' := by
    rw [List.getElem_drop, List.getElem_take] at hget
    exact hget
  exact h (a + k) (Nat.le_add_right a k) hb
    (by rw [List.getElem?_eq_getElem hv, hVak])

theorem jsSubstring_eq_take_drop (V : List Char) {a b : Nat} (hab : a ≤ b) :
    jsSubstring V a b = (V.take b).drop a := by
  unfold jsSubstring
  rw [Nat.max_eq_right hab, Nat.min_eq_left hab]

/-- With no space at the head of `V`, trimming a leading space from a prefix
changes nothing. -/
theorem trimLeadingSpace_take {V : List Char} (b : Nat)
    (h : V[0]? ≠ some ' ') :
    trimLeadingSpace (V.take b) = V.take b := by
  cases V with
  | nil => simp [trimLeadingSpace]
  | cons c rest =>
    cases b with
    | zero => simp [trimLeadingSpace]
    | succ b' =>
      have hc : c ≠ ' ' := fun hcs => h (by rw [List.getElem?_cons_zero, hcs])
      simp [trimLeadingSpace, hc]

/-- Trimming the leading space of the slice started at a space index skips
exactly that space. -/
theorem trimLeadingSpace_drop_space {V : List Char} {i b : Nat} (hib : i < b)
    (hiV : i < V.length) (hsp : V[i]? = some ' ') :
    trimLeadingSpace ((V.take b).drop i) = (V.take b).drop (i + 1) := by
  have hlen : i < (V.take b).length := by
    rw [List.length_take]
    omega
  rw [List.drop_eq_getElem_cons hlen, List.getElem_take]
  obtain ⟨hlt, hv⟩ := List.getElem?_eq_some.mp hsp
  simp [trimLeadingSpace, hv]

/-- `'.'`-prefixed-slice conditional can be phrased on the slice alone. -/
theorem dot_cons_if (s : List Char) :
    (if '.' :: s = ['.'] then ([] : List Char) else '.' :: s)
      = (if s = [] then ([] : List Char) else '.' :: s) := by
  by_cases hs : s = [] <;> simp [hs]

/-- Bounds and space-freeness of the interval `[start, stop)` computed by the
class branch: `start ≤ C ≤ stop ≤ |V|` and `V` has no space inside the
interval. -/
theorem class_bounds (V : List Char) (C : Nat) (hC : C ≤ V.length) :
    (jsLastIndexOfSpace (V.take C)).elim 0 (fun i => i + 1) ≤ C
    ∧ C ≤ (jsIndexOfSpaceFrom V C).elim V.length (fun j => j)
    ∧ (jsIndexOfSpaceFrom V C).elim V.length (fun j => j) ≤ V.length
    ∧ ∀ i, (jsLastIndexOfSpace (V.take C)).elim 0 (fun i => i + 1) ≤ i →
        i < (jsIndexOfSpaceFrom V C).elim V.length (fun j => j) →
        V[i]? ≠ some ' ' := by
  cases hE : jsIndexOfSpaceFrom V C with
  | none =>
    cases hL : jsLastIndexOfSpace (V.take C) with
    | none =>
      simp only [Option.elim_none]
      refine ⟨Nat.zero_le C, hC, Nat.le_refl _, ?_⟩
      intro i _ _
      rcases Nat.lt_or_ge i C with hlt | hge
      · exact lastSpaceBefore_eq_none hL i hlt
      · exact jsIndexOfSpaceFrom_eq_none hE i hge
    | some i0 =>
      obtain ⟨hi0C, _, hafter⟩ := lastSpaceBefore_eq_some hL
      simp only [Option.elim_none, Option.elim_some]
      refine ⟨hi0C, hC, Nat.le_refl _, ?_⟩
      intro i hai _
      rcases Nat.lt_or_ge i C with hlt | hge
      · exact hafter i (by omega) hlt
      · exact jsIndexOfSpaceFrom_eq_none hE i hge
  | some j =>
    obtain ⟨hCj, hjsp, hbefore⟩ := jsIndexOfSpaceFrom_eq_some hE
    obtain ⟨hjV, _⟩ := List.getElem?_eq_some.mp hjsp
    cases hL : jsLastIndexOfSpace (V.take C) with
    | none =>
      simp only [Option.elim_none, Option.elim_some]
      refine ⟨Nat.zero_le C, hCj, Nat.le_of_lt hjV, ?_⟩
      intro i _ hij
      rcases Nat.lt_or_ge i C with hlt | hge
      · exact lastSpaceBefore_eq_none hL i hlt
      · exact hbefore i hge hij
    | some i0 =>
      obtain ⟨hi0C, _, hafter⟩ := lastSpaceBefore_eq_some hL
      simp only [Option.elim_some]
      refine ⟨hi0C, hCj, Nat.le_of_lt hjV, ?_⟩
      intro i hai hij
      rcases Nat.lt_or_ge i C with hlt | hge
      · exact hafter i (by omega) hlt
      · exact hbefore i hge hij

/-- The class branch of the source computes exactly the claim's
specification. -/
theorem classSelectorCode_eq_spec (V : List Char) (C : Nat) (hC : C ≤ V.length) :
    classSelectorCode V C = classSelectorSpec V C := by
  simp only [classSelectorCode, classSelectorSpec]
  cases hE : jsIndexOfSpaceFrom V C with
  | none =>
    cases hL : jsLastIndexOfSpace (V.take C) with
    | none =>
      simp only [Option.elim_none]
      have hslice : jsSubstring V 0 V.length = trimLeadingSpace ((V.take V.length).drop 0) := by
        rw [List.drop_zero, jsSubstring_eq_take_drop V (Nat.zero_le _)]
        rcases Nat.eq_zero_or_pos V.length with h0 | h0
        · have hnil : V = [] := List.length_eq_zero.mp h0
          subst hnil
          simp [trimLeadingSpace]
        · rcases Nat.eq_zero_or_pos C with hC0 | hCpos
          · subst hC0
            exact (trimLeadingSpace_take V.length
              (jsIndexOfSpaceFrom_eq_none hE 0 (Nat.le_refl 0))).symm
          · exact (trimLeadingSpace_take V.length
              (lastSpaceBefore_eq_none hL 0 hCpos)).symm
      rw [hslice, dot_cons_if]
    | some i0 =>
      simp only [Option.elim_none, Option.elim_some]
      obtain ⟨hi0C, hi0sp, _⟩ := lastSpaceBefore_eq_some hL
      obtain ⟨hi0V, _⟩ := List.getElem?_eq_some.mp hi0sp
      have hslice : jsSubstring V (i0 + 1) V.length
          = trimLeadingSpace ((V.take V.length).drop i0) := by
        rw [jsSubstring_eq_take_drop V (Nat.le_trans (by omega) hC),
          trimLeadingSpace_drop_space (Nat.lt_of_lt_of_le hi0C hC) hi0V hi0sp]
      rw [hslice, dot_cons_if]
  | some j =>
    obtain ⟨hCj, hjsp, hbefore⟩ := jsIndexOfSpaceFrom_eq_some hE
    cases hL : jsLastIndexOfSpace (V.take C) with
    | none =>
      simp only [Option.elim_none, Option.elim_some]
      have hslice : jsSubstring V 0 j = trimLeadingSpace ((V.take j).drop 0) := by
        rw [List.drop_zero, jsSubstring_eq_take_drop V (Nat.zero_le _)]
        rcases Nat.eq_zero_or_pos j with hj0 | hjpos
        · subst hj0
          simp [trimLeadingSpace]
        · have hhead : V[0]? ≠ some ' ' := by
            rcases Nat.eq_zero_or_pos C with hC0 | hCpos
            · exact hbefore 0 (by omega) hjpos
            · exact lastSpaceBefore_eq_none hL 0 hCpos
          exact (trimLeadingSpace_take j hhead).symm
      rw [hslice, dot_cons_if]
    | some i0 =>
      simp only [Option.elim_some]
      obtain ⟨hi0C, hi0sp, _⟩ := lastSpaceBefore_eq_some hL
      obtain ⟨hi0V, _⟩ := List.getElem?_eq_some.mp hi0sp
      have hslice : jsSubstring V (i0 + 1) j = trimLeadingSpace ((V.take j).drop i0) := by
        rw [jsSubstring_eq_take_drop V (Nat.le_trans (by omega) hCj),
          trimLeadingSpace_drop_space (Nat.lt_of_lt_of_le hi0C hCj) hi0V hi0sp]
      rw [hslice, dot_cons_if]

/-- Whenever the class branch returns `'.' :: s`, the remainder `s` is a
non-empty space-free contiguous slice of the value spanning the cursor
offset. -/
theorem classSelectorCode_char {V : List Char} {C : Nat} (hC : C ≤ V.length)
    {s : List Char} (h : classSelectorCode V C = '.' :: s) :
    s ≠ [] ∧ ' ' ∉ s
      ∧ ∃ a b, a ≤ C ∧ C ≤ b ∧ b ≤ V.length ∧ s = (V.take b).drop a := by
  obtain ⟨ha, hb, hbV, hfree⟩ := class_bounds V C hC
  simp only [classSelectorCode] at h
  rw [jsSubstring_eq_take_drop V (Nat.le_trans ha hb), dot_cons_if] at h
  by_cases hsl :
      (V.take ((jsIndexOfSpaceFrom V C).elim V.length (fun j => j))).drop
        ((jsLastIndexOfSpace (V.take C)).elim 0 (fun i => i + 1)) = []
  · rw [if_pos hsl] at h
    cases h
  · rw [if_neg hsl] at h
    have hs := (List.cons.injEq _ _ _ _ ▸ h).2
    refine ⟨hs ▸ hsl, hs ▸ no_space_in_slice hfree, ?_⟩
    exact ⟨_, _, ha, hb, hbV, hs.symm⟩

/-! ## Claim theorems -/

/-- C1: on an attribute-name/attribute-value token whose attribute is
`class`, `_getSelectorName` returns exactly the claimed computation — `"."`
followed by the slice of the value between the last space before the cursor
offset (or 0) and the first space at/after it (or end of string), trimmed
of a leading space, empty when that slice is empty — and every non-empty
result `"." ++ s` has `s` a non-empty, space-free, contiguous substring of
the value whose span contains the cursor offset. -/
theorem resolve_class_selector (t : TagInfo)
    (htok : t.tokenType = TokenType.ATTR_NAME ∨ t.tokenType = TokenType.ATTR_VALUE)
    (hname : t.attrName = "class".toList)
    (hoff : t.offset ≤ t.attrValue.length) :
    getSelectorName t = classSelectorSpec t.attrValue t.offset
    ∧ ∀ s, getSelectorName t = '.' :: s →
        s ≠ [] ∧ ' ' ∉ s
          ∧ ∃ a b, a ≤ t.offset ∧ t.offset ≤ b ∧ b ≤ t.attrValue.length
              ∧ s = (t.attrValue.take b).drop a := by
  have hred : getSelectorName t = classSelectorCode t.attrValue t.offset := by
    rcases htok with h | h <;> simp [getSelectorName, h, hname]
  constructor
  · rw [hred]
    exact classSelectorCode_eq_spec _ _ hoff
  · intro s hs
    rw [hred] at hs
    exact classSelectorCode_char hoff hs

/-- Witness for C1 at the spec's own example: `class="error-dialog modal
hide"` with the cursor inside `modal`. -/
theorem resolve_class_selector_witness :
    getSelectorName
        ⟨TokenType.ATTR_VALUE, 15, [], "class".toList, "error-dialog modal hide".toList⟩
      = classSelectorSpec "error-dialog modal hide".toList 15 :=
  (resolve_class_selector _ (Or.inr rfl) rfl (by decide)).1

/-- C2: on an attribute-name/attribute-value token whose attribute is `id`,
`_getSelectorName` returns `"#"` followed by the entire attribute value,
whatever the cursor offset. -/
theorem resolve_id_selector (t : TagInfo)
    (htok : t.tokenType = TokenType.ATTR_NAME ∨ t.tokenType = TokenType.ATTR_VALUE)
    (hname : t.attrName = "id".toList) :
    getSelectorName t = '#' :: t.attrValue := by
  have hne : t.attrName ≠ "class".toList := by rw [hname]; decide
  rcases htok with h | h <;> simp [getSelectorName, h, hname, hne]

/-- Witness for C2: `id="main-panel"` resolves to `#main-panel`. -/
theorem resolve_id_selector_witness :
    getSelectorName ⟨TokenType.ATTR_VALUE, 3, [], "id".toList, "main-panel".toList⟩
      = '#' :: "main-panel".toList :=
  resolve_id_selector _ (Or.inr rfl) rfl

/-- C3: when the selection's language is not HTML, or the selection spans
two lines, or the selector resolved at the selection start is empty,
`htmlToCSSProvider` returns null synchronously — no lookup issued, no
widget, no log — and its result never depends on the passed-in `pos`. -/
theorem provider_early_out (hostEditor : HostEditor) (pos pos2 : Pos) (env : Env)
    (h : hostEditor.languageId ≠ "html".toList
        ∨ hostEditor.sel.startPos.line ≠ hostEditor.sel.endPos.line
        ∨ getSelectorName (hostEditor.tagInfoAt hostEditor.sel.startPos) = []) :
    provide hostEditor pos env =
      { ret := ProvideReturn.noProvider, widgetBuilt := false, session := none
        logs := [], lookupsIssued := 0 }
    ∧ provide hostEditor pos env = provide hostEditor pos2 env := by
  have hsync : provideSync hostEditor pos = ProvideSync.declined := by
    simp only [provideSync]
    by_cases h1 : hostEditor.languageId ≠ "html".toList
    · rw [if_pos h1]
    · rw [if_neg h1]
      by_cases h2 : hostEditor.sel.startPos.line ≠ hostEditor.sel.endPos.line
      · rw [if_pos h2]
      · rw [if_neg h2]
        have h3 : getSelectorName (hostEditor.tagInfoAt hostEditor.sel.startPos) = [] := by
          rcases h with h | h | h
          · exact absurd h h1
          · exact absurd h h2
          · exact h
        rw [if_pos h3]
  constructor
  · unfold provide
    rw [hsync]
  · rfl

/-- Witness for C3: a CSS-language selection spanning two lines is
declined. -/
theorem provider_early_out_witness :
    provide
        { languageId := "css".toList, sel := ⟨⟨0, 0⟩, ⟨1, 0⟩⟩
          tagInfoAt := fun _ => ⟨TokenType.OTHER, 0, [], [], []⟩ }
        ⟨0, 0⟩ { lookup := Except.ok [], fileInfos := [] } =
      { ret := ProvideReturn.noProvider, widgetBuilt := false, session := none
        logs := [], lookupsIssued := 0 } :=
  (provider_early_out _ _ ⟨0, 0⟩ _ (Or.inl (by decide))).1

/-- C4 as stated is false: with two stylesheets, an enabled button and the
dropdown already showing (the state reached by a first click), a click on
the button closes the picker instead of opening it. -/
theorem newRule_click_toggle_counterexample :
    openDropdownState.buttonDisabled = false
    ∧ openDropdownState.cssFileInfos.length = 2
    ∧ openDropdownState.dropdownOpen = true
    ∧ (handleNewRuleClick openDropdownState).2 = [UIAction.closeDropdown] :=
  ⟨rfl, rfl, rfl, rfl⟩

/-- C4 (amended): on a click with the button enabled — exactly one
stylesheet: the rule is created directly against that stylesheet's path and
no picker is involved; two or more stylesheets: the button is marked
`btn-dropdown` once the list arrives, and the click opens the picker
listing all candidates when none is showing, and closes it when one is. -/
theorem newRule_click_dispatch (s : SessionState) (hdis : s.buttonDisabled = false) :
    (∀ f, s.cssFileInfos = [f] →
        handleNewRuleClick s = (s, [UIAction.createRule f.fullPath]))
    ∧ (2 ≤ s.cssFileInfos.length → s.dropdownOpen = false →
        handleNewRuleClick s
          = ({ s with dropdownOpen := true }, [UIAction.openDropdown s.cssFileInfos]))
    ∧ (2 ≤ s.cssFileInfos.length → s.dropdownOpen = true →
        handleNewRuleClick s = ({ s with dropdownOpen := false }, [UIAction.closeDropdown]))
    ∧ ∀ rulesLen fileInfos, 2 ≤ fileInfos.length →
        (applyFileInfoList rulesLen s fileInfos).btnDropdownClass = true := by
  refine ⟨?_, ?_, ?_, ?_⟩
  · intro f hf
    simp [handleNewRuleClick, hdis, hf]
  · intro h2 hdo
    have hne : s.cssFileInfos.length ≠ 1 := by omega
    simp [handleNewRuleClick, hdis, hne, hdo]
  · intro h2 hdo
    have hne : s.cssFileInfos.length ≠ 1 := by omega
    simp [handleNewRuleClick, hdis, hne, hdo]
  · intro rulesLen fileInfos h2
    have hgt : fileInfos.length > 1 := by omega
    simp [applyFileInfoList, hgt]

/-- Witness for the amended C4, at the dropdown-open state: the second
click closes the picker. -/
theorem newRule_click_dispatch_witness :
    handleNewRuleClick openDropdownState
      = ({ openDropdownState with dropdownOpen := false }, [UIAction.closeDropdown]) :=
  (newRule_click_dispatch openDropdownState rfl).2.2.1 (by decide) rfl

/-- No session event other than the arrival of a non-empty stylesheet list
can clear the button's `disabled` class. -/
theorem sessionStep_preserves_disabled (selectorName : List Char) (rulesLen : Nat)
    (s : SessionState) (e : SessionEvent) (hdis : s.buttonDisabled = true)
    (hfl : ∀ fi, e = SessionEvent.fileListArrived fi → fi = []) :
    ((sessionStep selectorName rulesLen s e).1).buttonDisabled = true := by
  cases e with
  | fileListArrived fi =>
    have hfi : fi = [] := hfl fi rfl
    subst hfi
    simp [sessionStep, applyFileInfoList, hdis]
  | newRuleClick => simp [sessionStep, handleNewRuleClick, hdis]
  | ruleCreationDone docOutcome =>
    cases docOutcome with
    | none => simpa [sessionStep, addRule] using hdis
    | some info =>
      simp [sessionStep, addRule, setCursorPos, addAndSelectRange, hdis]
  | dropdownDismissed => simpa [sessionStep] using hdis

/-- C5: the new-rule button is created disabled, and in any session whose
stylesheet-list arrivals are all empty it stays disabled through every
further event — in particular also when the rule lookup returned zero
rules. -/
theorem zero_stylesheets_stays_disabled (initialRanges : List RangeEntry)
    (selectorName : List Char) (rulesLen : Nat) (events : List SessionEvent)
    (h : ∀ fi, SessionEvent.fileListArrived fi ∈ events → fi = []) :
    (initialSession initialRanges).buttonDisabled = true
    ∧ (runSession selectorName rulesLen (initialSession initialRanges)
        events).buttonDisabled = true := by
  refine ⟨rfl, ?_⟩
  have main : ∀ (evs : List SessionEvent) (s : SessionState), s.buttonDisabled = true →
      (∀ fi, SessionEvent.fileListArrived fi ∈ evs → fi = []) →
      (runSession selectorName rulesLen s evs).buttonDisabled = true := by
    intro evs
    induction evs with
    | nil =>
      intro s hs _
      simpa [runSession] using hs
    | cons e rest ih =>
      intro s hs hfl
      have hstep : runSession selectorName rulesLen s (e :: rest)
          = runSession selectorName rulesLen ((sessionStep selectorName rulesLen s e).1) rest := by
        simp [runSession]
      rw [hstep]
      refine ih _ (sessionStep_preserves_disabled _ _ s e hs ?_) ?_
      · intro fi he
        refine hfl fi ?_
        rw [← he]
        exact List.mem_cons_self e rest
      · intro fi hfi
        exact hfl fi (List.mem_cons_of_mem e hfi)
  exact main events _ rfl h

/-- Witness for C5: an empty list arrives, then a click; the button is
still disabled. -/
theorem zero_stylesheets_stays_disabled_witness :
    (initialSession []).buttonDisabled = true
    ∧ (runSession [] 0 (initialSession [])
        [SessionEvent.fileListArrived [], SessionEvent.newRuleClick]).buttonDisabled = true :=
  zero_stylesheets_stays_disabled [] [] 0 _ (by
    intro fi hfi
    simp only [List.mem_cons, List.not_mem_nil, or_false] at hfi
    rcases hfi with hfi | hfi
    · injection hfi
    · cases hfi)

/-- C6: once the provider has started (its synchronous phase yielded a
pending lookup), a failing rule lookup makes the returned promise reject,
builds no widget and no session, issues exactly one lookup (no retry), and
leaves only the diagnostic log line. -/
theorem lookup_failure_rejected (hostEditor : HostEditor) (pos : Pos) (env : Env)
    (hpending : ∃ selectorName, provideSync hostEditor pos = ProvideSync.pending selectorName)
    (hfail : env.lookup = Except.error ()) :
    provide hostEditor pos env =
      { ret := ProvideReturn.rejected, widgetBuilt := false, session := none
        logs := ["Error in findMatchingRules()".toList], lookupsIssued := 1 } := by
  obtain ⟨selectorName, hsync⟩ := hpending
  unfold provide
  rw [hsync, hfail]

/-- Witness for C6: a tag-name position in HTML with a failing lookup. -/
theorem lookup_failure_rejected_witness :
    provide
        { languageId := "html".toList, sel := ⟨⟨0, 2⟩, ⟨0, 5⟩⟩
          tagInfoAt := fun _ => ⟨TokenType.TAG_NAME, 0, "div".toList, [], []⟩ }
        ⟨0, 5⟩ { lookup := Except.error (), fileInfos := [] } =
      { ret := ProvideReturn.rejected, widgetBuilt := false, session := none
        logs := ["Error in findMatchingRules()".toList], lookupsIssued := 1 } :=
  lookup_failure_rejected _ _ _ ⟨"div".toList, by decide⟩ rfl

/-- C7: the global new-rule command invokes no handler when no widget has
focus or the focused widget has no registry entry, and any handler it does
invoke belongs to a registry entry for the focused widget. -/
theorem newRule_command_dispatch (focused : Option Nat) (entries : List HandlerEntry) :
    (focused = none → handleNewRule focused entries = none)
    ∧ (∀ w, focused = some w → (∀ e ∈ entries, e.inlineEditor ≠ w) →
        handleNewRule focused entries = none)
    ∧ ∀ h, handleNewRule focused entries = some h →
        ∃ w e, focused = some w ∧ e ∈ entries ∧ e.inlineEditor = w ∧ e.handler = h := by
  refine ⟨?_, ?_, ?_⟩
  · intro h
    subst h
    rfl
  · intro w hw hnone
    subst hw
    have hred : handleNewRule (some w) entries
        = (entries.find? (fun entry => entry.inlineEditor = w)).map
            (fun entry => entry.handler) := rfl
    rw [hred, List.find?_eq_none.mpr]
    · rfl
    · intro e he
      simpa using hnone e he
  · intro h hh
    cases focused with
    | none => simp [handleNewRule] at hh
    | some w =>
      have hred : handleNewRule (some w) entries
          = (entries.find? (fun entry => entry.inlineEditor = w)).map
              (fun entry => entry.handler) := rfl
      rw [hred, Option.map_eq_some'] at hh
      obtain ⟨e, he, rfl⟩ := hh
      have hmem := List.mem_of_find?_eq_some he
      have hp := List.find?_some he
      simp only [decide_eq_true_eq] at hp
      exact ⟨w, e, rfl, hmem, hp, rfl⟩

/-- Witness for C7: widget 1 focused but only widget 2 registered — the
command is a no-op. -/
theorem newRule_command_dispatch_witness :
    handleNewRule (some 1) [{ inlineEditor := 2, handler := 5 }] = none :=
  (newRule_command_dispatch (some 1) [⟨2, 5⟩]).2.1 1 rfl (by decide)

/-- C8: a completed rule creation appends to the widget exactly one new
range, selects it, gives it the from/to lines of the range returned by the
insertion, and moves the widget's editor caret to the returned position. -/
theorem addRule_splices_range (selectorName : List Char) (newRuleInfo : NewRuleInfo)
    (s : SessionState) :
    ∃ r : RangeEntry,
      (addRule selectorName (some newRuleInfo) s).1.ranges = s.ranges ++ [r]
      ∧ (addRule selectorName (some newRuleInfo) s).1.selectedRange = some r
      ∧ r.fromLine = newRuleInfo.rangeFromLine
      ∧ r.toLine = newRuleInfo.rangeToLine
      ∧ (addRule selectorName (some newRuleInfo) s).1.caret = newRuleInfo.pos :=
  ⟨⟨selectorName, newRuleInfo.rangeFromLine, newRuleInfo.rangeToLine⟩,
    rfl, rfl, rfl, rfl, rfl⟩

/-- C9: when the document for the stylesheet path cannot be obtained,
`_addRule` changes nothing: no action is emitted and the session state —
ranges, selection, caret — is exactly as before. -/
theorem addRule_doc_failure_noop (selectorName : List Char) (s : SessionState) :
    addRule selectorName none s = (s, []) := rfl

/-- C10: while the button carries the `disabled` class, the new-rule
handler — reached by a direct click or routed via the global command — is a
no-op: same state, no actions. -/
theorem disabled_button_click_noop (s : SessionState) (hdis : s.buttonDisabled = true) :
    handleNewRuleClick s = (s, [])
    ∧ ∀ selectorName rulesLen,
        sessionStep selectorName rulesLen s SessionEvent.newRuleClick = (s, []) := by
  constructor
  · simp [handleNewRuleClick, hdis]
  · intro selectorName rulesLen
    simp [sessionStep, handleNewRuleClick, hdis]

/-- Witness for C10: a click on the freshly built (still disabled) widget
does nothing. -/
theorem disabled_button_click_noop_witness :
    handleNewRuleClick (initialSession []) = (initialSession [], []) :=
  (disabled_button_click_noop _ rfl).1

end CSSInlineEditor
